import Mathlib

/-!
Shallow embedding of the combat-strategy compiler of loop-casual
(src/combat.ts) and proofs about it.

The libram Macro combinator library is modelled as a list of steps
(`MacroStep`); every builder method of the library used by the source
appends a step (or, for `step`, a whole list of steps) at the end, which
matches the library's string-concatenation semantics.  A conditional
branch `if_ monster body` is a step holding its body.  One round of
first-match-wins evaluation of the assembled program against a concrete
opponent is `Macro.select`.

Numeric game values (monster defense, physical resistance, buffed stats)
are integers in KoLmafia; the single fractional constant 1.25 of the
escalation test is represented exactly over the rationals.
-/

namespace Combat

/-- A combat stat, the result of the game's weaponType accessor. -/
inductive Stat : Type where
  | muscle
  | mysticality
  | moxie
deriving DecidableEq

/-- An external skill, identity-keyed by its name. -/
structure Skill : Type where
  name : String
deriving DecidableEq

/-- An external item, identity-keyed by its name. -/
structure Item : Type where
  name : String
deriving DecidableEq

/-- An external monster: identity plus the two numeric attributes the
compiler consults (monsterDefense and physicalResistance). -/
structure Monster : Type where
  id : Nat
  defense : Int
  physicalResistance : Int
deriving DecidableEq

/-- The Intent enum of src/combat.ts (MonsterStrategy). -/
inductive MonsterStrategy : Type where
  | RunAway
  | Kill
  | KillHard
  | Banish
  | Abort
deriving DecidableEq

/-- One step of a libram Macro.  `if_` carries the body it guards;
everything else is a primitive action. -/
inductive MacroStep : Type where
  | skill (s : Skill)
  | trySkill (s : Skill)
  | item (i : Item)
  | tryItem (i : Item)
  | attack
  | repeat_
  | runaway
  | abort
  | if_ (m : Monster) (body : List MacroStep)

/-- A libram Macro: an ordered list of steps. -/
structure Macro : Type where
  steps : List MacroStep

def Macro.new : Macro := ⟨[]⟩

def Macro.skill (mac : Macro) (s : Skill) : Macro := ⟨mac.steps ++ [MacroStep.skill s]⟩

def Macro.trySkill (mac : Macro) (s : Skill) : Macro := ⟨mac.steps ++ [MacroStep.trySkill s]⟩

def Macro.item (mac : Macro) (i : Item) : Macro := ⟨mac.steps ++ [MacroStep.item i]⟩

def Macro.tryItem (mac : Macro) (i : Item) : Macro := ⟨mac.steps ++ [MacroStep.tryItem i]⟩

def Macro.attack (mac : Macro) : Macro := ⟨mac.steps ++ [MacroStep.attack]⟩

def Macro.repeat_ (mac : Macro) : Macro := ⟨mac.steps ++ [MacroStep.repeat_]⟩

def Macro.runaway (mac : Macro) : Macro := ⟨mac.steps ++ [MacroStep.runaway]⟩

def Macro.abort (mac : Macro) : Macro := ⟨mac.steps ++ [MacroStep.abort]⟩

def Macro.if_ (mac : Macro) (m : Monster) (body : Macro) : Macro :=
  ⟨mac.steps ++ [MacroStep.if_ m body.steps]⟩

def Macro.step (mac : Macro) (other : Macro) : Macro := ⟨mac.steps ++ other.steps⟩

/-- One round of first-match-wins evaluation: scanning the step list for
opponent `o`, a conditional branch whose monster matches selects its body,
a non-matching conditional is skipped, and the first unconditional step
starts the final default tail. -/
def firstMatch : List MacroStep → Monster → List MacroStep
  | [], _ => []
  | MacroStep.if_ m body :: rest, o => if m = o then body else firstMatch rest o
  | s :: rest, _ => s :: rest

/-- The sub-program the assembled macro selects for opponent `o`. -/
def Macro.select (mac : Macro) (o : Monster) : Macro := ⟨firstMatch mac.steps o⟩

/-- The live game state consulted at compile time:
`weaponStat` is weaponType(equippedItem(weapon slot)) and
`myBuffedstat` is the buffed-stat accessor. -/
structure GameContext : Type where
  weaponStat : Stat
  myBuffedstat : Stat → Int

/-- A banish resource: its `do` field is an Item or a Skill. -/
structure BanishSource : Type where
  do_ : Sum Item Skill

/-- A runaway resource: its `do` field is a ready-made Macro. -/
structure RunawaySource : Type where
  do_ : Macro

/-- A wanderer resource; only its monster is consulted by the builder. -/
structure WandererSource : Type where
  monster : Monster

def curseOfWeaksauce : Skill := ⟨"Curse of Weaksauce"⟩

def pocketCrumbs : Skill := ⟨"Pocket Crumbs"⟩

def micrometeorite : Skill := ⟨"Micrometeorite"⟩

def rainDohIndigoCup : Item := ⟨"Rain-Doh indigo cup"⟩

def summonLoveMosquito : Skill := ⟨"Summon Love Mosquito"⟩

def timeSpinner : Item := ⟨"Time-Spinner"⟩

def saucestorm : Skill := ⟨"Saucestorm"⟩

def saucegeyser : Skill := ⟨"Saucegeyser"⟩

def lungingThrustSmack : Skill := ⟨"Lunging Thrust-Smack"⟩

/-- The delevel sequence built at the top of prepare_macro: one
unconditional skill cast followed by five try-steps. -/
def delevel : Macro :=
  ((((Macro.new.skill curseOfWeaksauce).trySkill pocketCrumbs).trySkill
      micrometeorite).tryItem rainDohIndigoCup).trySkill summonLoveMosquito
    |>.tryItem timeSpinner

/-- The JS truthiness test `monster && monster.physicalResistance >= 70`. -/
def physResAtLeast70 : Option Monster → Bool
  | some m => decide (70 ≤ m.physicalResistance)
  | none => false

/-- BuiltCombatStrategy.prepare_macro.  The use_banish and use_runaway
fields of the object are passed explicitly, and the KoLmafia globals are
read from `ctx`.  The escalation test monsterDefense * 1.25 >
myBuffedstat(weaponType(equippedItem(weapon))) is taken over ℚ, where it
is exact. -/
def prepareMacro (use_banish use_runaway : Option Macro) (ctx : GameContext)
    (strategy : Sum MonsterStrategy Macro) (monster : Option Monster) : Macro :=
  match strategy with
  | Sum.inr mac => mac
  | Sum.inl strat0 =>
    let strat : MonsterStrategy :=
      match strat0, monster with
      | MonsterStrategy.Kill, some m =>
          if (m.defense : ℚ) * 1.25 > ((ctx.myBuffedstat ctx.weaponStat : Int) : ℚ) then
            MonsterStrategy.KillHard
          else
            MonsterStrategy.Kill
      | s, _ => s
    match strat with
    | MonsterStrategy.RunAway =>
      match use_runaway with
      | none => (((Macro.new.runaway).skill saucestorm).attack).repeat_
      | some r => r
    | MonsterStrategy.Kill =>
      if physResAtLeast70 monster then (delevel.skill saucegeyser).repeat_
      else (delevel.attack).repeat_
    | MonsterStrategy.KillHard =>
      if physResAtLeast70 monster || (ctx.weaponStat != Stat.muscle) then
        (delevel.skill saucegeyser).repeat_
      else
        (delevel.skill lungingThrustSmack).repeat_
    | MonsterStrategy.Banish =>
      match use_banish with
      | none => Macro.new.abort
      | some b => b
    | MonsterStrategy.Abort => Macro.new.abort

/-- Overwrite-or-insert on an association list, modelling
JavaScript Map.set: an existing key keeps its position and gets the new
value, a new key is appended. -/
def mapSet {α : Type} (l : List (Monster × α)) (k : Monster) (v : α) : List (Monster × α) :=
  if l.any (fun p => p.1 == k) then
    l.map (fun p => if p.1 = k then (k, v) else p)
  else
    l ++ [(k, v)]

/-- The declarative strategy table (class CombatStrategy). -/
structure CombatStrategy : Type where
  default_strategy : MonsterStrategy
  defaultMacro : Option Macro
  strategy : List (Monster × MonsterStrategy)
  customMacros : List (Monster × Macro)
  boss : Bool

/-- The CombatStrategy constructor. -/
def CombatStrategy.new (boss : Option Bool) : CombatStrategy :=
  { default_strategy := MonsterStrategy.RunAway
    defaultMacro := none
    strategy := []
    customMacros := []
    boss := boss.getD false }

/-- CombatStrategy.apply: empty list sets the default intent, otherwise
each listed monster's intent entry is set. -/
def CombatStrategy.apply (s : CombatStrategy) (strat : MonsterStrategy)
    (monsters : List Monster) : CombatStrategy :=
  let s := if monsters = [] then { s with default_strategy := strat } else s
  { s with strategy := monsters.foldl (fun m mon => mapSet m mon strat) s.strategy }

def CombatStrategy.kill (s : CombatStrategy) (monsters : List Monster) : CombatStrategy :=
  s.apply MonsterStrategy.Kill monsters

def CombatStrategy.killHard (s : CombatStrategy) (monsters : List Monster) : CombatStrategy :=
  s.apply MonsterStrategy.KillHard monsters

/-- CombatStrategy.banish: throws on an empty monster list. -/
def CombatStrategy.banish (s : CombatStrategy) (monsters : List Monster) :
    Except String CombatStrategy :=
  if monsters = [] then Except.error "Must specify list of monsters to banish"
  else Except.ok (s.apply MonsterStrategy.Banish monsters)

def CombatStrategy.flee (s : CombatStrategy) (monsters : List Monster) : CombatStrategy :=
  s.apply MonsterStrategy.RunAway monsters

def CombatStrategy.abort (s : CombatStrategy) (monsters : List Monster) : CombatStrategy :=
  s.apply MonsterStrategy.Abort monsters

/-- CombatStrategy.macro: empty list sets the default macro, otherwise
each listed monster's custom-macro entry is set. -/
def CombatStrategy.setMacro (s : CombatStrategy) (strategy : Macro)
    (monsters : List Monster) : CombatStrategy :=
  let s := if monsters = [] then { s with defaultMacro := some strategy } else s
  { s with customMacros := monsters.foldl (fun m mon => mapSet m mon strategy) s.customMacros }

def CombatStrategy.item (s : CombatStrategy) (i : Item) (monsters : List Monster) :
    CombatStrategy :=
  s.setMacro (Macro.new.item i) monsters

/-- CombatStrategy.can. -/
def CombatStrategy.can (s : CombatStrategy) (do_this : MonsterStrategy) : Bool :=
  if do_this = s.default_strategy then true
  else (s.strategy.map Prod.snd).contains do_this

/-- CombatStrategy.where. -/
def CombatStrategy.where_ (s : CombatStrategy) (do_this : MonsterStrategy) : List Monster :=
  (s.strategy.map Prod.fst).filter (fun k => s.strategy.lookup k == some do_this)

/-- The use_banish macro resolved from a banish source (constructor
lines: item source wraps the item, skill source wraps the skill). -/
def banishMacro : Option BanishSource → Option Macro
  | none => none
  | some bs =>
    match bs.do_ with
    | Sum.inl i => some (Macro.new.item i)
    | Sum.inr sk => some (Macro.new.skill sk)

def runawayMacro (r : Option RunawaySource) : Option Macro := r.map RunawaySource.do_

/-- The assembled program: class BuiltCombatStrategy's fields. -/
structure BuiltCombatStrategy : Type where
  builtMacro : Macro
  use_banish : Option Macro
  use_runaway : Option Macro

/-- The BuiltCombatStrategy constructor: resolve the banish and runaway
resources, then layer wanderer branches, custom-macro branches, intent
branches, the default macro and the compiled default intent, in the
source's order (earlier appends sit earlier in the step list, hence at
higher first-match priority). -/
def BuiltCombatStrategy.build (abstract : CombatStrategy) (ctx : GameContext)
    (wanderers : List WandererSource) (banish : Option BanishSource)
    (runaway : Option RunawaySource) : BuiltCombatStrategy :=
  let ub := banishMacro banish
  let ur := runawayMacro runaway
  let mac := wanderers.foldl
    (fun mac w =>
      mac.if_ w.monster (prepareMacro ub ur ctx (Sum.inl MonsterStrategy.KillHard) none))
    Macro.new
  let mac := abstract.customMacros.foldl (fun mac p => mac.if_ p.1 p.2) mac
  let mac := abstract.strategy.foldl
    (fun mac p => mac.if_ p.1 (prepareMacro ub ur ctx (Sum.inl p.2) (some p.1))) mac
  let mac :=
    match abstract.defaultMacro with
    | some dm => mac.step dm
    | none => mac
  let mac := mac.step (prepareMacro ub ur ctx (Sum.inl abstract.default_strategy) none)
  ⟨mac, ub, ur⟩

/-- BuiltCombatStrategy.handle_monster: prepend a branch for the given
monster in front of the whole existing program. -/
def BuiltCombatStrategy.handle_monster (b : BuiltCombatStrategy) (ctx : GameContext)
    (monster : Monster) (strategy : Sum MonsterStrategy Macro) : BuiltCombatStrategy :=
  { b with
    builtMacro :=
      (Macro.new.if_ monster
        (prepareMacro b.use_banish b.use_runaway ctx strategy (some monster))).step
        b.builtMacro }

/-! ### Concrete fixtures used to evaluate the definitions -/

def sealTooth : Item := ⟨"seal tooth"⟩

/-- A muscle-weapon context with effective offense 100. -/
def ctx0 : GameContext := ⟨Stat.muscle, fun _ => 100⟩

/-- A non-muscle-weapon context with effective offense 100. -/
def ctxRanged : GameContext := ⟨Stat.moxie, fun _ => 100⟩

/-- A weak opponent: defense 50 (no escalation at offense 100), no
physical resistance. -/
def monA : Monster := ⟨1, 50, 0⟩

/-- A tough opponent: defense 300, physical resistance 80. -/
def monB : Monster := ⟨2, 300, 80⟩

/-- An opponent triggering escalation at offense 100 (125 > 100) with no
physical resistance. -/
def monC : Monster := ⟨3, 100, 0⟩

/-- An opponent distinct from the others, left untouched by the tables. -/
def monD : Monster := ⟨4, 10, 0⟩

/-- A best-effort step: attempted only if currently usable and silently
skipped otherwise (the try-variants of the combinator library). -/
def bestEffortStep : MacroStep → Bool
  | MacroStep.trySkill _ => true
  | MacroStep.tryItem _ => true
  | _ => false

def progP : Macro := Macro.new.item sealTooth

/-- A fresh table. -/
def tbl0 : CombatStrategy := CombatStrategy.new none

/-- A table where monA has both an intent (Kill) and a custom program. -/
def tbl1 : CombatStrategy := ((CombatStrategy.new none).kill [monA]).setMacro progP [monA]

end Combat

namespace Combat

/-! ### Infrastructure lemmas -/

theorem foldl_if_steps {β : Type} (fm : β → Monster) (fb : β → Macro) (l : List β)
    (init : Macro) :
    (l.foldl (fun mac x => mac.if_ (fm x) (fb x)) init).steps
      = init.steps ++ l.map (fun x => MacroStep.if_ (fm x) (fb x).steps) := by
  induction l generalizing init with
  | nil => simp
  | cons x xs ih =>
      rw [List.foldl_cons, ih]
      simp [Macro.if_]

theorem firstMatch_map_if {β : Type} (fm : β → Monster) (fb : β → List MacroStep)
    (l : List β) (rest : List MacroStep) (o : Monster) :
    firstMatch (l.map (fun x => MacroStep.if_ (fm x) (fb x)) ++ rest) o
      = (match l.find? (fun x => fm x == o) with
         | some x => fb x
         | none => firstMatch rest o) := by
  induction l with
  | nil => simp
  | cons x xs ih =>
      rw [List.map_cons, List.cons_append]
      by_cases h : fm x = o
      · have hb : (fm x == o) = true := beq_iff_eq.mpr h
        simp only [firstMatch, if_pos h, List.find?, hb]
      · have hb : (fm x == o) = false := beq_false_of_ne h
        simp only [firstMatch, if_neg h, List.find?, hb]
        exact ih

theorem lookup_eq_some_iff_find? {α : Type} (l : List (Monster × α)) (o : Monster) (v : α) :
    l.lookup o = some v ↔ l.find? (fun p => p.1 == o) = some (o, v) := by
  induction l with
  | nil => simp
  | cons a l ih =>
      obtain ⟨a1, a2⟩ := a
      by_cases h : o = a1
      · have hb : (a1 == o) = true := beq_iff_eq.mpr h.symm
        have hb2 : (o == a1) = true := beq_iff_eq.mpr h
        simp only [List.lookup_cons, List.find?, hb, hb2]
        constructor
        · intro hv
          rw [h, Option.some_inj.mp hv]
        · intro hv
          have := Option.some_inj.mp hv
          rw [(Prod.mk.injEq _ _ _ _).mp this |>.2]
      · have hb : (a1 == o) = false := beq_false_of_ne (fun e => h e.symm)
        have hb2 : (o == a1) = false := beq_false_of_ne h
        simp only [List.lookup_cons, List.find?, hb, hb2]
        exact ih

theorem any_key_eq_isSome {α : Type} (l : List (Monster × α)) (k : Monster) :
    l.any (fun p => p.1 == k) = (l.lookup k).isSome := by
  induction l with
  | nil => simp
  | cons a l ih =>
      obtain ⟨a1, a2⟩ := a
      by_cases h : a1 = k
      · subst h
        simp [List.lookup_cons, beq_self_eq_true]
      · rw [List.lookup_cons, beq_false_of_ne (fun e => h e.symm)]
        simp only [List.any_cons, beq_false_of_ne h, Bool.false_or]
        exact ih

theorem lookup_map_overwrite {α : Type} (l : List (Monster × α)) (k k' : Monster) (v : α) :
    (l.map (fun p => if p.1 = k then (k, v) else p)).lookup k'
      = if k' = k then (if (l.lookup k).isSome then some v else none)
        else l.lookup k' := by
  induction l with
  | nil => simp
  | cons a l ih =>
      obtain ⟨a1, a2⟩ := a
      rw [List.map_cons]
      by_cases hak : a1 = k
      · by_cases hk' : k' = a1
        · have h1 : (k' == k) = true := beq_iff_eq.mpr (hk'.trans hak)
          have h2 : (k == k) = true := beq_self_eq_true k
          simp [List.lookup_cons, hak, h1, h2, hk'.trans hak]
        · have h2 : ¬ k' = k := fun e => hk' (e.trans hak.symm)
          have h1 : (k' == k) = false := beq_false_of_ne h2
          have h3 : (k' == a1) = false := beq_false_of_ne hk'
          simp [List.lookup_cons, hak, h1, h2, h3, ih]
      · by_cases hk' : k' = a1
        · have h1 : (k' == a1) = true := beq_iff_eq.mpr hk'
          have h2 : ¬ k' = k := fun e => hak (hk'.symm.trans e)
          simp [List.lookup_cons, hak, h1, h2]
        · have h1 : (k' == a1) = false := beq_false_of_ne hk'
          have h2 : (k == a1) = false := beq_false_of_ne (fun e => hak e.symm)
          rw [if_neg hak, List.lookup_cons, List.lookup_cons, List.lookup_cons, h1, h2]
          simpa using ih

theorem lookup_append_single {α : Type} (l : List (Monster × α)) (k k' : Monster) (v : α) :
    (l ++ [(k, v)]).lookup k'
      = (match l.lookup k' with
         | some w => some w
         | none => if k' = k then some v else none) := by
  induction l with
  | nil =>
      by_cases h : k' = k
      · have h1 : (k' == k) = true := beq_iff_eq.mpr h
        simp [List.lookup_cons, h1, h]
      · have h1 : (k' == k) = false := beq_false_of_ne h
        simp [List.lookup_cons, h1, h]
  | cons a l ih =>
      obtain ⟨a1, a2⟩ := a
      by_cases h : k' = a1
      · have h1 : (k' == a1) = true := beq_iff_eq.mpr h
        simp [List.lookup_cons, h1]
      · have h1 : (k' == a1) = false := beq_false_of_ne h
        simp [List.lookup_cons, h1, ih]

theorem lookup_mapSet {α : Type} (l : List (Monster × α)) (k k' : Monster) (v : α) :
    (mapSet l k v).lookup k' = if k' = k then some v else l.lookup k' := by
  unfold mapSet
  by_cases hany : l.any (fun p => p.1 == k) = true
  · rw [if_pos hany, lookup_map_overwrite]
    rw [any_key_eq_isSome] at hany
    rw [hany, if_pos rfl]
  · rw [if_neg hany, lookup_append_single]
    rw [any_key_eq_isSome] at hany
    have hnone : l.lookup k = none := by
      cases h : l.lookup k with
      | none => rfl
      | some w => rw [h] at hany; simp at hany
    by_cases h : k' = k
    · simp [h, hnone]
    · cases hl : l.lookup k' <;> simp [h]

end Combat

namespace Combat

theorem build_steps (abstract : CombatStrategy) (ctx : GameContext)
    (wanderers : List WandererSource) (banish : Option BanishSource)
    (runaway : Option RunawaySource) :
    (BuiltCombatStrategy.build abstract ctx wanderers banish runaway).builtMacro.steps
      = wanderers.map (fun w => MacroStep.if_ w.monster
            (prepareMacro (banishMacro banish) (runawayMacro runaway) ctx
              (Sum.inl MonsterStrategy.KillHard) none).steps)
        ++ (abstract.customMacros.map (fun p => MacroStep.if_ p.1 p.2.steps)
        ++ (abstract.strategy.map (fun p => MacroStep.if_ p.1
              (prepareMacro (banishMacro banish) (runawayMacro runaway) ctx
                (Sum.inl p.2) (some p.1)).steps)
        ++ ((match abstract.defaultMacro with
             | some dm => dm.steps
             | none => [])
        ++ (prepareMacro (banishMacro banish) (runawayMacro runaway) ctx
              (Sum.inl abstract.default_strategy) none).steps))) := by
  cases habs : abstract.defaultMacro with
  | none =>
      simp [BuiltCombatStrategy.build, habs, foldl_if_steps, Macro.step, Macro.new]
  | some dm =>
      simp [BuiltCombatStrategy.build, habs, foldl_if_steps, Macro.step, Macro.new]

end Combat

namespace Combat

/-- Claim C1: in a built strategy, an opponent that has both a custom
program in the table's custom-program map and an intent in the intent
map gets the custom program selected by first-match evaluation, never
the intent-compiled program, because custom-program branches are layered
in front of intent branches (wanderer branches aside). -/
theorem customProgram_beats_intent (abstract : CombatStrategy) (ctx : GameContext)
    (wanderers : List WandererSource) (banish : Option BanishSource)
    (runaway : Option RunawaySource) (o : Monster) (P : Macro)
    (hP : abstract.customMacros.lookup o = some P)
    (hw : ∀ w ∈ wanderers, w.monster ≠ o) :
    (BuiltCombatStrategy.build abstract ctx wanderers banish runaway).builtMacro.select o
      = P := by
  unfold Macro.select
  rw [build_steps, firstMatch_map_if]
  have hw' : wanderers.find? (fun w => w.monster == o) = none :=
    List.find?_eq_none.mpr (fun w hmem => by
      rw [beq_false_of_ne (hw w hmem)]
      exact Bool.false_ne_true)
  rw [hw', firstMatch_map_if, (lookup_eq_some_iff_find? _ _ _).mp hP]

/-- Witness for C1 on a concrete table where monA has intent Kill and
custom program progP. -/
theorem customProgram_beats_intent_witness :
    tbl1.customMacros.lookup monA = some progP ∧
      (BuiltCombatStrategy.build tbl1 ctx0 [] none none).builtMacro.select monA = progP :=
  ⟨rfl, customProgram_beats_intent tbl1 ctx0 [] none none monA progP rfl
    (fun w hmem => absurd hmem (List.not_mem_nil w))⟩

/-- Claim C2: handle_monster prepends a branch for the given opponent in
front of the whole program, so the next first-match evaluation against
that opponent selects the new program (Abort here), whatever the program
held before; stacked calls give priority to the most recent one. -/
theorem handle_monster_prepends (b : BuiltCombatStrategy) (ctx : GameContext) (o : Monster) :
    ((b.handle_monster ctx o (Sum.inl MonsterStrategy.Abort)).builtMacro.select o
        = Macro.new.abort)
    ∧ (∀ s1 s2 : Sum MonsterStrategy Macro,
        (((b.handle_monster ctx o s1).handle_monster ctx o s2).builtMacro.select o)
          = prepareMacro b.use_banish b.use_runaway ctx s2 (some o)) := by
  constructor
  · unfold BuiltCombatStrategy.handle_monster Macro.select
    simp [Macro.step, Macro.if_, Macro.new, firstMatch, prepareMacro]
  · intro s1 s2
    unfold BuiltCombatStrategy.handle_monster Macro.select
    simp [Macro.step, Macro.if_, Macro.new, firstMatch]

/-- Claim C3: when the opponent's defense times 1.25 exceeds the
attacker's effective offensive stat, compiling Kill gives the same
program as compiling KillHard (silent escalation). -/
theorem kill_escalates (ub ur : Option Macro) (ctx : GameContext) (m : Monster)
    (h : (m.defense : ℚ) * 1.25 > ((ctx.myBuffedstat ctx.weaponStat : Int) : ℚ)) :
    prepareMacro ub ur ctx (Sum.inl MonsterStrategy.Kill) (some m)
      = prepareMacro ub ur ctx (Sum.inl MonsterStrategy.KillHard) (some m) := by
  unfold prepareMacro
  simp [h]

/-- Witness for C3: defense 100 against effective offense 100
(125 > 100 forces escalation). -/
theorem kill_escalates_witness :
    prepareMacro none none ctx0 (Sum.inl MonsterStrategy.Kill) (some monC)
      = prepareMacro none none ctx0 (Sum.inl MonsterStrategy.KillHard) (some monC) :=
  kill_escalates none none ctx0 monC (by norm_num [ctx0, monC])

end Combat

namespace Combat

theorem prepareMacro_kill_eq (ub ur : Option Macro) (ctx : GameContext) (o : Monster) :
    prepareMacro ub ur ctx (Sum.inl MonsterStrategy.Kill) (some o)
      = if (o.defense : ℚ) * 1.25 > ((ctx.myBuffedstat ctx.weaponStat : Int) : ℚ) then
          (if physResAtLeast70 (some o) || (ctx.weaponStat != Stat.muscle) then
            (delevel.skill saucegeyser).repeat_
          else (delevel.skill lungingThrustSmack).repeat_)
        else
          (if physResAtLeast70 (some o) then (delevel.skill saucegeyser).repeat_
           else (delevel.attack).repeat_) := by
  unfold prepareMacro
  by_cases h : (o.defense : ℚ) * 1.25 > ((ctx.myBuffedstat ctx.weaponStat : Int) : ℚ) <;>
    simp [h]

theorem prepareMacro_killHard_eq (ub ur : Option Macro) (ctx : GameContext)
    (monster : Option Monster) :
    prepareMacro ub ur ctx (Sum.inl MonsterStrategy.KillHard) monster
      = if physResAtLeast70 monster || (ctx.weaponStat != Stat.muscle) then
          (delevel.skill saucegeyser).repeat_
        else (delevel.skill lungingThrustSmack).repeat_ := by
  cases monster <;> rfl

theorem killHard_cond_iff (ctx : GameContext) (o : Monster) :
    (physResAtLeast70 (some o) || (ctx.weaponStat != Stat.muscle)) = true
      ↔ (70 ≤ o.physicalResistance ∨ ctx.weaponStat ≠ Stat.muscle) := by
  simp [physResAtLeast70, bne_iff_ne]

theorem lookup_some_mem_keys {α : Type} (l : List (Monster × α)) (k : Monster) (v : α)
    (h : l.lookup k = some v) : k ∈ l.map Prod.fst := by
  induction l with
  | nil => simp [List.lookup] at h
  | cons a l ih =>
      obtain ⟨a1, a2⟩ := a
      by_cases hk : k = a1
      · simp [hk]
      · rw [List.lookup_cons, beq_false_of_ne hk] at h
        simp only [List.map_cons, List.mem_cons]
        exact Or.inr (ih h)

end Combat

namespace Combat

theorem attack_not_mem_geyser :
    MacroStep.attack ∉ ((delevel.skill saucegeyser).repeat_).steps := by
  simp [delevel, Macro.skill, Macro.trySkill, Macro.tryItem, Macro.repeat_, Macro.new]

theorem attack_not_mem_lts :
    MacroStep.attack ∉ ((delevel.skill lungingThrustSmack).repeat_).steps := by
  simp [delevel, Macro.skill, Macro.trySkill, Macro.tryItem, Macro.repeat_, Macro.new]

/-- Counterexample to claim C4 as stated: the compiled KillHard program
for a concrete opponent does not begin with 5 best-effort attempts — its
first step is an unconditional skill cast. -/
theorem debuff_not_five_best_effort :
    ¬ (∀ s ∈ ((prepareMacro none none ctx0 (Sum.inl MonsterStrategy.KillHard)
        (some monA)).steps.take 5), bestEffortStep s = true) := by
  decide

/-- Claim C4 amended: the Kill and KillHard programs begin with a fixed,
ordered debuff sequence of exactly 6 ability/item steps — one
unconditional skill cast (Curse of Weaksauce) followed by exactly 5
best-effort attempts in a fixed order, never retried — before the
finishing move. -/
theorem debuff_six_steps (ub ur : Option Macro) (ctx : GameContext) (o : Monster)
    (i : MonsterStrategy)
    (hi : i = MonsterStrategy.Kill ∨ i = MonsterStrategy.KillHard) :
    ∃ fin, (prepareMacro ub ur ctx (Sum.inl i) (some o)).steps = delevel.steps ++ fin
      ∧ delevel.steps.length = 6
      ∧ delevel.steps.take 1 = [MacroStep.skill curseOfWeaksauce]
      ∧ (∀ s ∈ delevel.steps.drop 1, bestEffortStep s = true)
      ∧ (fin = [MacroStep.skill saucegeyser, MacroStep.repeat_]
         ∨ fin = [MacroStep.attack, MacroStep.repeat_]
         ∨ fin = [MacroStep.skill lungingThrustSmack, MacroStep.repeat_]) := by
  have hlen : delevel.steps.length = 6 := rfl
  have htake : delevel.steps.take 1 = [MacroStep.skill curseOfWeaksauce] := rfl
  have hdrop : ∀ s ∈ delevel.steps.drop 1, bestEffortStep s = true := by decide
  rcases hi with rfl | rfl
  · rw [prepareMacro_kill_eq]
    by_cases hesc : (o.defense : ℚ) * 1.25 > ((ctx.myBuffedstat ctx.weaponStat : Int) : ℚ)
    · rw [if_pos hesc]
      by_cases hb : (physResAtLeast70 (some o) || (ctx.weaponStat != Stat.muscle)) = true
      · rw [if_pos hb]
        exact ⟨[MacroStep.skill saucegeyser, MacroStep.repeat_],
          by simp [Macro.skill, Macro.repeat_], hlen, htake, hdrop, Or.inl rfl⟩
      · rw [if_neg hb]
        exact ⟨[MacroStep.skill lungingThrustSmack, MacroStep.repeat_],
          by simp [Macro.skill, Macro.repeat_], hlen, htake, hdrop, Or.inr (Or.inr rfl)⟩
    · rw [if_neg hesc]
      by_cases hp : physResAtLeast70 (some o) = true
      · rw [if_pos hp]
        exact ⟨[MacroStep.skill saucegeyser, MacroStep.repeat_],
          by simp [Macro.skill, Macro.repeat_], hlen, htake, hdrop, Or.inl rfl⟩
      · rw [if_neg hp]
        exact ⟨[MacroStep.attack, MacroStep.repeat_],
          by simp [Macro.attack, Macro.repeat_], hlen, htake, hdrop, Or.inr (Or.inl rfl)⟩
  · rw [prepareMacro_killHard_eq]
    by_cases hb : (physResAtLeast70 (some o) || (ctx.weaponStat != Stat.muscle)) = true
    · rw [if_pos hb]
      exact ⟨[MacroStep.skill saucegeyser, MacroStep.repeat_],
        by simp [Macro.skill, Macro.repeat_], hlen, htake, hdrop, Or.inl rfl⟩
    · rw [if_neg hb]
      exact ⟨[MacroStep.skill lungingThrustSmack, MacroStep.repeat_],
        by simp [Macro.skill, Macro.repeat_], hlen, htake, hdrop, Or.inr (Or.inr rfl)⟩

/-- Witness for the amended C4 at the KillHard intent. -/
theorem debuff_six_steps_witness :
    ∃ fin, (prepareMacro none none ctx0 (Sum.inl MonsterStrategy.KillHard)
        (some monA)).steps = delevel.steps ++ fin
      ∧ delevel.steps.length = 6
      ∧ delevel.steps.take 1 = [MacroStep.skill curseOfWeaksauce]
      ∧ (∀ s ∈ delevel.steps.drop 1, bestEffortStep s = true)
      ∧ (fin = [MacroStep.skill saucegeyser, MacroStep.repeat_]
         ∨ fin = [MacroStep.attack, MacroStep.repeat_]
         ∨ fin = [MacroStep.skill lungingThrustSmack, MacroStep.repeat_]) :=
  debuff_six_steps none none ctx0 monA MonsterStrategy.KillHard (Or.inr rfl)

/-- Claim C5: KillHard finishes with repeated Saucegeyser when physical
resistance is at least 70 or the weapon stat is not muscle, otherwise
with repeated Lunging Thrust-Smack; the KillHard program never contains
the plain basic attack. -/
theorem killHard_finisher (ub ur : Option Macro) (ctx : GameContext) (o : Monster) :
    (prepareMacro ub ur ctx (Sum.inl MonsterStrategy.KillHard) (some o)
        = (if 70 ≤ o.physicalResistance ∨ ctx.weaponStat ≠ Stat.muscle then
             (delevel.skill saucegeyser).repeat_
           else (delevel.skill lungingThrustSmack).repeat_))
    ∧ MacroStep.attack ∉ (prepareMacro ub ur ctx (Sum.inl MonsterStrategy.KillHard)
        (some o)).steps := by
  rw [prepareMacro_killHard_eq]
  constructor
  · by_cases h : 70 ≤ o.physicalResistance ∨ ctx.weaponStat ≠ Stat.muscle
    · rw [if_pos ((killHard_cond_iff ctx o).mpr h), if_pos h]
    · rw [if_neg (fun hb => h ((killHard_cond_iff ctx o).mp hb)), if_neg h]
  · by_cases hb : (physResAtLeast70 (some o) || (ctx.weaponStat != Stat.muscle)) = true
    · rw [if_pos hb]
      exact attack_not_mem_geyser
    · rw [if_neg hb]
      exact attack_not_mem_lts

/-- Claim C6: with physical resistance at least 70, both Kill and
KillHard finish with repeated Saucegeyser and never the basic attack;
with resistance below 70 and no escalation, Kill finishes with the
repeated basic attack. -/
theorem physRes_forces_geyser (ub ur : Option Macro) (ctx : GameContext) (o o' : Monster)
    (h : 70 ≤ o.physicalResistance)
    (h1 : o'.physicalResistance < 70)
    (h2 : ¬ ((o'.defense : ℚ) * 1.25 > ((ctx.myBuffedstat ctx.weaponStat : Int) : ℚ))) :
    prepareMacro ub ur ctx (Sum.inl MonsterStrategy.Kill) (some o)
        = (delevel.skill saucegeyser).repeat_
    ∧ prepareMacro ub ur ctx (Sum.inl MonsterStrategy.KillHard) (some o)
        = (delevel.skill saucegeyser).repeat_
    ∧ MacroStep.attack ∉ ((delevel.skill saucegeyser).repeat_).steps
    ∧ prepareMacro ub ur ctx (Sum.inl MonsterStrategy.Kill) (some o')
        = (delevel.attack).repeat_ := by
  have hp : physResAtLeast70 (some o) = true := by
    simp [physResAtLeast70, h]
  have hp' : physResAtLeast70 (some o') = false := by
    simp [physResAtLeast70]
    omega
  refine ⟨?_, ?_, attack_not_mem_geyser, ?_⟩
  · rw [prepareMacro_kill_eq]
    by_cases hesc : (o.defense : ℚ) * 1.25 > ((ctx.myBuffedstat ctx.weaponStat : Int) : ℚ)
    · simp [hesc, hp]
    · simp [hesc, hp]
  · rw [prepareMacro_killHard_eq]
    simp [hp]
  · rw [prepareMacro_kill_eq, if_neg h2, hp']
    simp

end Combat

namespace Combat

/-- Witness for C6: monB (resistance 80) forces Saucegeyser for both
intents; monA (resistance 0, defense 50 against offense 100, so no
escalation) gets the repeated basic attack from Kill. -/
theorem physRes_forces_geyser_witness :
    70 ≤ monB.physicalResistance ∧ monA.physicalResistance < 70 ∧
      prepareMacro none none ctx0 (Sum.inl MonsterStrategy.Kill) (some monA)
        = (delevel.attack).repeat_ :=
  ⟨by decide, by decide,
    (physRes_forces_geyser none none ctx0 monB monA (by decide) (by decide)
      (by norm_num [monA, ctx0])).2.2.2⟩

/-- Claim C7: banish with zero opponents fails with the configuration
error (leaving the table untouched, since only an error value is
returned); banish with two opponents sets both intent entries to Banish
and leaves every other intent entry, the custom programs, the default
intent and the default program unchanged. -/
theorem banish_contract (s : CombatStrategy) (o1 o2 m : Monster)
    (hm1 : m ≠ o1) (hm2 : m ≠ o2) :
    s.banish [] = Except.error "Must specify list of monsters to banish"
    ∧ s.banish [o1, o2] = Except.ok (s.apply MonsterStrategy.Banish [o1, o2])
    ∧ (s.apply MonsterStrategy.Banish [o1, o2]).strategy.lookup o1
        = some MonsterStrategy.Banish
    ∧ (s.apply MonsterStrategy.Banish [o1, o2]).strategy.lookup o2
        = some MonsterStrategy.Banish
    ∧ (s.apply MonsterStrategy.Banish [o1, o2]).strategy.lookup m = s.strategy.lookup m
    ∧ (s.apply MonsterStrategy.Banish [o1, o2]).customMacros = s.customMacros
    ∧ (s.apply MonsterStrategy.Banish [o1, o2]).default_strategy = s.default_strategy
    ∧ (s.apply MonsterStrategy.Banish [o1, o2]).defaultMacro = s.defaultMacro := by
  have happ : (s.apply MonsterStrategy.Banish [o1, o2]).strategy
      = mapSet (mapSet s.strategy o1 MonsterStrategy.Banish) o2
          MonsterStrategy.Banish := rfl
  refine ⟨rfl, rfl, ?_, ?_, ?_, rfl, rfl, rfl⟩
  · rw [happ, lookup_mapSet, lookup_mapSet]
    simp
  · rw [happ, lookup_mapSet]
    simp
  · rw [happ, lookup_mapSet, lookup_mapSet, if_neg hm2, if_neg hm1]

/-- Witness for C7 on a concrete table: banishing monB and monC leaves
monA's entry unchanged. -/
theorem banish_contract_witness :
    monA ≠ monB ∧ monA ≠ monC ∧
      (tbl1.apply MonsterStrategy.Banish [monB, monC]).strategy.lookup monA
        = tbl1.strategy.lookup monA :=
  ⟨by decide, by decide,
    (banish_contract tbl1 monB monC monA (by decide) (by decide)).2.2.2.2.1⟩

/-- Claim C8: with no banish resource, Banish compiles to the
unconditional Abort program; with one, it compiles to the resource's
action wrapped as a one-step program; intent compilation is a total
function — it produces a program for every well-formed intent tag. -/
theorem banish_degrades_to_abort (ur : Option Macro) (ctx : GameContext) (o : Monster)
    (i : Item) (sk : Skill) (abstract : CombatStrategy)
    (wanderers : List WandererSource) (runaway : Option RunawaySource) :
    prepareMacro none ur ctx (Sum.inl MonsterStrategy.Banish) (some o) = Macro.new.abort
    ∧ (BuiltCombatStrategy.build abstract ctx wanderers none runaway).use_banish = none
    ∧ (BuiltCombatStrategy.build abstract ctx wanderers (some ⟨Sum.inl i⟩)
        runaway).use_banish = some (Macro.new.item i)
    ∧ (BuiltCombatStrategy.build abstract ctx wanderers (some ⟨Sum.inr sk⟩)
        runaway).use_banish = some (Macro.new.skill sk)
    ∧ prepareMacro (some (Macro.new.item i)) ur ctx (Sum.inl MonsterStrategy.Banish)
        (some o) = Macro.new.item i
    ∧ prepareMacro (some (Macro.new.skill sk)) ur ctx (Sum.inl MonsterStrategy.Banish)
        (some o) = Macro.new.skill sk
    ∧ (∀ (tag : MonsterStrategy) (ub : Option Macro) (mo : Option Monster),
        ∃ p : Macro, prepareMacro ub ur ctx (Sum.inl tag) mo = p) :=
  ⟨rfl, rfl, rfl, rfl, rfl, rfl, fun _ _ _ => ⟨_, rfl⟩⟩

/-- Claim C9: a fresh table can RunAway (the initial default intent);
can is true exactly for the default intent or an intent present among
the per-opponent values; where returns exactly the opponents mapped to
the intent, without duplicates. -/
theorem can_and_where (s : CombatStrategy) (i : MonsterStrategy) (m : Monster)
    (hnd : (s.strategy.map Prod.fst).Nodup) :
    ((CombatStrategy.new none).can MonsterStrategy.RunAway = true)
    ∧ (s.can i = true ↔ i = s.default_strategy ∨ i ∈ s.strategy.map Prod.snd)
    ∧ (m ∈ s.where_ i ↔ s.strategy.lookup m = some i)
    ∧ (s.where_ i).Nodup := by
  refine ⟨rfl, ?_, ?_, ?_⟩
  · by_cases hd : i = s.default_strategy
    · simp [CombatStrategy.can, hd]
    · simp only [CombatStrategy.can, if_neg hd]
      constructor
      · intro hc
        exact Or.inr (List.elem_iff.mp hc)
      · intro hc
        rcases hc with hc | hc
        · exact absurd hc hd
        · exact List.elem_iff.mpr hc
  · unfold CombatStrategy.where_
    rw [List.mem_filter]
    constructor
    · rintro ⟨hmem, hpred⟩
      exact beq_iff_eq.mp hpred
    · intro hl
      exact ⟨lookup_some_mem_keys _ _ _ hl, beq_iff_eq.mpr hl⟩
  · unfold CombatStrategy.where_
    exact List.Nodup.filter _ hnd

/-- Witness for C9 on a concrete table with a single Kill entry. -/
theorem can_and_where_witness :
    (tbl1.strategy.map Prod.fst).Nodup ∧ (tbl1.where_ MonsterStrategy.Kill).Nodup :=
  ⟨by decide, (can_and_where tbl1 MonsterStrategy.Kill monD (by decide)).2.2.2⟩

/-- Claim C10: the builder compiles wanderer branches with no monster
argument, so the wanderer's physical resistance is never consulted and
the selected wanderer branch depends only on the equipped weapon's
stat category. -/
theorem wanderer_branch_ignores_resistance (abstract : CombatStrategy) (ctx : GameContext)
    (wanderers : List WandererSource) (banish : Option BanishSource)
    (runaway : Option RunawaySource) (w : WandererSource) (hw : w ∈ wanderers) :
    (BuiltCombatStrategy.build abstract ctx wanderers banish runaway).builtMacro.select
        w.monster
      = (if ctx.weaponStat ≠ Stat.muscle then (delevel.skill saucegeyser).repeat_
         else (delevel.skill lungingThrustSmack).repeat_) := by
  unfold Macro.select
  rw [build_steps, firstMatch_map_if]
  have hex : ∃ x ∈ wanderers, (x.monster == w.monster) = true :=
    ⟨w, hw, beq_self_eq_true _⟩
  obtain ⟨x, hfind⟩ := Option.isSome_iff_exists.mp (List.find?_isSome.mpr hex)
  rw [hfind]
  show prepareMacro (banishMacro banish) (runawayMacro runaway) ctx
      (Sum.inl MonsterStrategy.KillHard) none = _
  rw [prepareMacro_killHard_eq]
  by_cases hne : ctx.weaponStat = Stat.muscle
  · have hb : ¬ ((physResAtLeast70 none || (ctx.weaponStat != Stat.muscle)) = true) := by
      simp [physResAtLeast70, hne]
    rw [if_neg hb, if_neg (fun hn => hn hne)]
  · have hb : (physResAtLeast70 none || (ctx.weaponStat != Stat.muscle)) = true := by
      simp [physResAtLeast70, bne_iff_ne, hne]
    rw [if_pos hb, if_pos hne]

/-- Witness for C10: a wanderer with physical resistance 80 still gets
the Lunging Thrust-Smack finisher under a muscle weapon — its
resistance is ignored. -/
theorem wanderer_branch_ignores_resistance_witness :
    (BuiltCombatStrategy.build tbl0 ctx0 [⟨monB⟩] none none).builtMacro.select
        (WandererSource.mk monB).monster
      = (delevel.skill lungingThrustSmack).repeat_ := by
  rw [wanderer_branch_ignores_resistance tbl0 ctx0 [⟨monB⟩] none none ⟨monB⟩
    (List.mem_singleton.mpr rfl)]
  simp [ctx0]

end Combat
